import Mathlib

/-!
Verification of the tubule-network simulation engine (`TubulePhysicsPBC.py`).

The embedding models the Python/numpy program shallowly:

* floating-point scalars become `F := Option ℝ`: `some x` is an ordinary
  (finite) float modelled as a real, and `none` models the IEEE NaN that
  numpy produces for `0/0` (the only division-by-zero this program can
  perform, since every numerator is a vector component bounded by the zero
  norm in the denominator).  IEEE comparisons involving NaN are false, which
  the comparison predicates below reproduce.
* mutable Python objects become an arena: junctions and tubules live in the
  `Substrate`'s lists and refer to each other by list index.
* each Python method becomes a state-passing function on that arena.
-/

open scoped Classical

noncomputable section

/-- Scalar of the simulation: `some x` is a finite float value modelled as a
real, `none` models NaN. -/
abbrev F := Option ℝ

/-- Addition; NaN-propagating. -/
def fadd : F → F → F
  | some a, some b => some (a + b)
  | _, _ => none

/-- Subtraction; NaN-propagating. -/
def fsub : F → F → F
  | some a, some b => some (a - b)
  | _, _ => none

/-- Multiplication; NaN-propagating. -/
def fmul : F → F → F
  | some a, some b => some (a * b)
  | _, _ => none

/-- Division.  `0/0` yields NaN (`none`); in this program the numerator of
every division is bounded in magnitude by the denominator, so the infinite
`x/0` case never arises. -/
def fdiv : F → F → F
  | some a, some b => if b = 0 then none else some (a / b)
  | _, _ => none

/-- Strict `<` between two floats; false when either side is NaN. -/
def fltv : F → F → Prop
  | some a, some b => a < b
  | _, _ => False

/-- Strict `>` between two floats; false when either side is NaN. -/
def fgtv : F → F → Prop
  | some a, some b => a > b
  | _, _ => False

/-- Strict `<` against a real constant; false when the float is NaN. -/
def fltc : F → ℝ → Prop
  | some a, c => a < c
  | none, _ => False

/-- Strict `>` against a real constant; false when the float is NaN. -/
def fgtc : F → ℝ → Prop
  | some a, c => a > c
  | none, _ => False

/-- Strict `>` of a real constant against a float; false when the float is
NaN. -/
def cgtf (c : ℝ) : F → Prop
  | some a => c > a
  | none => False

/-- Two-dimensional float vectors. -/
abbrev FV := F × F

/-- Componentwise vector addition. -/
def vadd (a b : FV) : FV := (fadd a.1 b.1, fadd a.2 b.2)

/-- Componentwise vector subtraction. -/
def vsub (a b : FV) : FV := (fsub a.1 b.1, fsub a.2 b.2)

/-- Scalar multiple of a vector. -/
def vsmul (c : F) (a : FV) : FV := (fmul c a.1, fmul c a.2)

/-- Euclidean norm, `np.linalg.norm`; NaN in, NaN out. -/
def fnorm : FV → F
  | (some x, some y) => some (Real.sqrt (x ^ 2 + y ^ 2))
  | _ => none

/-- Componentwise division of a vector by a scalar, as in
`vector / np.linalg.norm(vector)`. -/
def funit (v : FV) (n : F) : FV := (fdiv v.1 n, fdiv v.2 n)

/-- Dot product, `np.dot`. -/
def fdot (a b : FV) : F := fadd (fmul a.1 b.1) (fmul a.2 b.2)

/-- Python's float `%` for the positive moduli used by this program:
`a - w * ⌊a / w⌋`. -/
def fmodc : F → ℝ → F
  | some a, w => some (a - w * (⌊a / w⌋ : ℤ))
  | none, _ => none

/-- A junction (`class Junction`).  `adjacent` stores arena indices of the
junctions connected by a tubule. -/
structure Junction where
  position : FV
  velocity : FV
  vector : FV
  flowing : Bool
  growing : Bool
  anchor : Bool
  flowrate : FV
  dragrate : ℝ
  cross : ℤ
  width : ℝ
  adjacent : List ℕ
  just_split : Bool

/-- `Junction.__init__(x, y)`. -/
def mkJunction (x y : F) : Junction :=
  { position := (x, y)
    velocity := (some 0, some 0)
    vector := (some 0, some 0)
    flowing := false
    growing := false
    anchor := false
    flowrate := (some 0, some 0)
    dragrate := 1
    cross := 0
    width := 0
    adjacent := []
    just_split := true }

instance : Inhabited Junction := ⟨mkJunction (some 0) (some 0)⟩

/-- `Junction.moveJunction`. -/
def moveJunction (j : Junction) : Junction :=
  -- wraparound happens at the junction level
  let j :=
    if j.anchor = false then
      let j :=
        if j.cross > 0 then
          { j with position := (fmodc j.position.1 j.width, j.position.2), cross := 0 }
        else j
      if j.cross < 0 then
        { j with position := (fmodc j.position.1 j.width, j.position.2), cross := 0 }
      else j
    else j
  -- system flow still unimplemented
  let j :=
    if j.flowing then { j with position := vadd j.position j.flowrate } else j
  if j.anchor = false then
    { j with
      position := vadd j.position j.velocity
      velocity := vsmul (some j.dragrate) j.velocity }
  else j

/-- A tubule (`class Tubule`).  `j1`, `j2` are arena indices; `vector`,
`norm` and `unit` are the cached geometry fields; `to_remove` models the
presence of the Python `to_remove` attribute. -/
structure Tubule where
  j1 : ℕ
  j2 : ℕ
  width : ℝ
  crossover : ℤ
  vector : FV
  norm : F
  unit : FV
  hookes : ℝ
  growth : ℝ
  contracting : Bool
  to_remove : Bool

/-- `Tubule.__init__(j1, j2)`: at construction time `width = 0` and
`crossover = 0`, so the `vector[0] += width * crossover` line adds
`0 * 0`; the caches are computed from that vector. -/
def mkTubule (i1 i2 : ℕ) (p1 p2 : FV) : Tubule :=
  let width : ℝ := 0
  let crossover : ℤ := 0
  let v0 := vsub p2 p1
  let v : FV := (fadd v0.1 (some (width * (crossover : ℝ))), v0.2)
  { j1 := i1
    j2 := i2
    width := width
    crossover := crossover
    vector := v
    norm := fnorm v
    unit := funit v (fnorm v)
    hookes := 0
    growth := 0
    contracting := true
    to_remove := false }

instance : Inhabited Tubule :=
  ⟨{ j1 := 0, j2 := 0, width := 0, crossover := 0, vector := (some 0, some 0),
     norm := some 0, unit := (none, none), hookes := 0, growth := 0,
     contracting := true, to_remove := false }⟩

/-- Arena getter for junctions (Python attribute access through an object
reference). -/
def getJl (js : List Junction) (i : ℕ) : Junction := js.getD i default

/-- `Tubule.updateTubule`, reading the endpoint positions from the junction
arena:
`vector -= vector; vector += j2.position; vector[0] += width*crossover;
vector -= j1.position`, then recompute `norm` and `unit`. -/
def updateTubule (js : List Junction) (t : Tubule) : Tubule :=
  let p1 := (getJl js t.j1).position
  let p2 := (getJl js t.j2).position
  let v1 := vsub t.vector t.vector
  let v2 := vadd v1 p2
  let v3 : FV := (fadd v2.1 (some (t.width * (t.crossover : ℝ))), v2.2)
  let v := vsub v3 p1
  { t with vector := v, norm := fnorm v, unit := funit v (fnorm v) }

/-- Arena update for junctions; `List.set` out of range is a no-op (never
reached: callers index live junctions). -/
def setJl (js : List Junction) (i : ℕ) (f : Junction → Junction) : List Junction :=
  js.set i (f (getJl js i))

/-- `Tubule.contractTubule`, acting on the junction arena. -/
def contractTubule (js : List Junction) (t : Tubule) : List Junction :=
  let js :=
    if (getJl js t.j1).anchor = false ∧ t.contracting then
      setJl js t.j1 fun j =>
        { j with velocity := vadd j.velocity (vsmul (some t.hookes) t.vector) }
    else js
  if (getJl js t.j2).anchor = false ∧ t.contracting then
    setJl js t.j2 fun j =>
      { j with velocity := vsub j.velocity (vsmul (some t.hookes) t.vector) }
  else js

/-- The substrate (`class Substrate`): configuration plus the junction and
tubule arenas.  Field defaults mirror the `kargs` defaults of
`Substrate.__init__`. -/
structure Substrate where
  width : ℝ
  height : ℝ
  bound_x : Bool := false
  wrap_x : Bool := true
  flowing : Bool := false
  flowrate : FV := (some 0, some (-(1 / 10000000)))
  dragrate : ℝ := 99 / 100
  hookes : ℝ := 5 / 100000
  growth : ℝ := 1 / 2
  contracting : Bool := true
  junctions : List Junction := []
  tubules : List Tubule := []

/-- Junction lookup on a substrate. -/
def getJ (S : Substrate) (i : ℕ) : Junction := getJl S.junctions i

/-- Junction update on a substrate. -/
def modJ (S : Substrate) (i : ℕ) (f : Junction → Junction) : Substrate :=
  { S with junctions := setJl S.junctions i f }

/-- Tubule lookup on a substrate. -/
def getT (S : Substrate) (i : ℕ) : Tubule := S.tubules.getD i default

/-- Tubule update on a substrate. -/
def modT (S : Substrate) (i : ℕ) (f : Tubule → Tubule) : Substrate :=
  { S with tubules := S.tubules.set i (f (getT S i)) }

/-- `Substrate.addJunction`.  The `Option` parameters model the presence or
absence of the corresponding `kargs` entry; the result pairs the new
substrate with the arena index of the created junction (Python returns the
object itself). -/
def addJunction (S : Substrate) (x y : F)
    (anchorK growingK flowingK : Option Bool) (flowrateK : Option FV)
    (dragrateK : Option ℝ) (widthK : Option ℝ) (crossK : Option ℤ) :
    Substrate × ℕ :=
  let j0 := mkJunction x y
  let j :=
    { j0 with
      anchor := anchorK.getD false
      growing := growingK.getD false
      flowing := flowingK.getD S.flowing
      flowrate := flowrateK.getD S.flowrate
      dragrate := dragrateK.getD S.dragrate
      width := widthK.getD S.width
      cross := crossK.getD 0 }
  ({ S with junctions := S.junctions ++ [j] }, S.junctions.length)

/-- `Substrate.addTubule`.  Note the faithful copy of source line 170:
`tubule.width = kargs.get('growth', self.width)` — the width field is
populated from the `growth` karg, and the `widthK` argument is accepted but
never read, exactly as in the Python. -/
def addTubule (S : Substrate) (i1 i2 : ℕ)
    (hookesK growthK widthK : Option ℝ) (crossoverK : Option ℤ) :
    Substrate × ℕ :=
  let t0 := mkTubule i1 i2 (getJ S i1).position (getJ S i2).position
  let _ := widthK
  let t :=
    { t0 with
      hookes := hookesK.getD S.hookes
      growth := growthK.getD S.growth
      width := growthK.getD S.width
      crossover := crossoverK.getD 0 }
  let S := modJ S i1 fun j => { j with adjacent := j.adjacent ++ [i2] }
  let S := modJ S i2 fun j => { j with adjacent := j.adjacent ++ [i1] }
  ({ S with tubules := S.tubules ++ [t] }, S.tubules.length)

/-- The scan loop of `Substrate.splitTubule` (lines 187-195): walk the
tubule collection subtracting each cached `norm` from the drawn length
until `split_len > t.norm` fails, and report that tubule's index together
with the residual length.  A NaN `norm` also fails the `>` test (IEEE), so
such a tubule is selected.  If the loop exhausts the collection no split
happens (`none`). -/
def findSplit (r : ℝ) : List Tubule → ℕ → Option (ℕ × ℝ)
  | [], _ => none
  | t :: ts, i =>
    match t.norm with
    | some n => if r > n then findSplit (r - n) ts (i + 1) else some (i, r)
    | none => some (i, r)

/-- The topology edit of `Substrate.splitTubule` (lines 226-245): create
the branch junction at `p1` and the growing tip at `p2`, remove the direct
adjacency between the split tubule's endpoints
(`try: adjacent.remove(...) except ValueError: pass`, i.e. removal of the
first occurrence and a no-op when absent), create the three replacement
tubules with the given crossovers, and mark the original for removal. -/
def splitTopo (S : Substrate) (i : ℕ) (p1 p2 : FV) (c1 c2 c3 : ℤ) : Substrate :=
  let t := getT S i
  let P1 := addJunction S p1.1 p1.2 none none none none none none none
  let S1 := P1.1
  let s1 := P1.2
  let P2 := addJunction S1 p2.1 p2.2 none (some true) none none none none none
  let S2 := P2.1
  let s2 := P2.2
  let S3 := modJ S2 t.j1 fun j => { j with adjacent := j.adjacent.erase t.j2 }
  let S4 := modJ S3 t.j2 fun j => { j with adjacent := j.adjacent.erase t.j1 }
  let S5 := (addTubule S4 s1 t.j1 none none none (some c1)).1
  let S6 := (addTubule S5 s1 t.j2 none none none (some c2)).1
  let S7 := (addTubule S6 s1 s2 none none none (some c3)).1
  modT S7 i fun t => { t with to_remove := true }

/-- The split body of `Substrate.splitTubule` (lines 198-247) for the
selected tubule index `i` and residual arc length `split_len`; `choice`
is the value drawn by `random.choice([-1, 1])`: the geometry of the branch
point and tip, the crossover heuristics, and then the topology edit. -/
def doSplit (S : Substrate) (i : ℕ) (split_len : ℝ) (choice : ℝ) : Substrate :=
  let t := getT S i
  let tj1 := getJ S t.j1
  let tj2 := getJ S t.j2
  -- s2_vec = [-unit.y, unit.x] * choice
  let s2_vec : FV :=
    (fmul (fsub (some 0) t.unit.2) (some choice), fmul t.unit.1 (some choice))
  let s1_pos := vadd tj1.position (vsmul (some split_len) t.unit)
  let s2_pos := vadd s1_pos (vsmul (some (1 / 10)) s2_vec)
  -- crossover corrections for the two replacement tubules
  let cpair : ℤ × ℤ :=
    if t.crossover > 0 then
      if fltv s1_pos.1 tj2.position.1 then (-1, 0)
      else if fgtv s1_pos.1 tj1.position.1 then (0, 1)
      else (0, 0)
    else if t.crossover < 0 then
      if fltv s1_pos.1 tj1.position.1 then (0, -1)
      else if fgtv s1_pos.1 tj2.position.1 then (1, 0)
      else (0, 0)
    else (0, 0)
  -- crossover of the new growing branch
  let sp_crossover : ℤ :=
    if fgtc s2_pos.1 S.width ∧ fltc s1_pos.1 S.width then 1
    else if fltc s2_pos.1 0 ∧ fgtc s1_pos.1 0 then -1
    else 0
  splitTopo S i s1_pos s2_pos cpair.1 cpair.2 sp_crossover

/-- `Substrate.splitTubule`; `r` is the value drawn by
`random.uniform(0, sys_len)` and `choice` the drawn perpendicular sign. -/
def splitTubule (S : Substrate) (r : ℝ) (choice : ℝ) : Substrate :=
  match findSplit r S.tubules 0 with
  | none => S
  | some p => doSplit S p.1 p.2 choice

/-- The displacement `j.vector = j.position - t.j1.position` with the
crossover correction of `Substrate.mergeTubule` lines 277-283. -/
def mergeVec (S : Substrate) (ji : ℕ) (t : Tubule) : FV :=
  let j := getJ S ji
  let v0 := vsub j.position (getJ S t.j1).position
  if t.crossover > 0 then
    if fltv j.position.1 (getJ S t.j2).position.1 then (fadd v0.1 (some S.width), v0.2)
    else v0
  else if t.crossover < 0 then
    if fgtv j.position.1 (getJ S t.j2).position.1 then (fsub v0.1 (some S.width), v0.2)
    else v0
  else v0

/-- The distance-dependent collinearity threshold of `mergeTubule`
lines 290-295; NaN fails both `<` tests and gets the strict threshold. -/
def colCheck (n : F) : ℝ :=
  if fltc n (1 / 10) then 0 else if fltc n 1 then 9 / 10 else 999 / 1000

/-- The crossover corrections of `mergeTubule` lines 309-322 for the two
replacement tubules. -/
def mergeCrossovers (S : Substrate) (ji : ℕ) (t : Tubule) : ℤ × ℤ :=
  let j := getJ S ji
  if t.crossover > 0 then
    if fltv j.position.1 (getJ S t.j2).position.1 then (-1, 0)
    else if fgtv j.position.1 (getJ S t.j1).position.1 then (0, 1)
    else (0, 0)
  else if t.crossover < 0 then
    if fltv j.position.1 (getJ S t.j1).position.1 then (0, -1)
    else if fgtv j.position.1 (getJ S t.j2).position.1 then (1, 0)
    else (0, 0)
  else (0, 0)

/-- The body executed by `mergeTubule` on a hit (lines 309-332): create two
tubules `j`-`t.j1` and `j`-`t.j2`, then `j.adjacent.remove(t.j1)` and
`j.adjacent.remove(t.j2)` (removal of the first occurrence of each, which
always succeeds because they were just appended), clear `growing`, and mark
tubule `i` for removal. -/
def mergeAction (S : Substrate) (ji i : ℕ) (t : Tubule) : Substrate :=
  let pr := mergeCrossovers S ji t
  let S2 := (addTubule S ji t.j1 none none none (some pr.1)).1
  let S3 := (addTubule S2 ji t.j2 none none none (some pr.2)).1
  let S4 := modJ S3 ji fun j =>
    { j with adjacent := (j.adjacent.erase t.j1).erase t.j2 }
  let S5 := modJ S4 ji fun j => { j with growing := false }
  modT S5 i fun t => { t with to_remove := true }

/-- The scan loop of `mergeTubule` (lines 264-332) over tubule indices.
A tubule whose endpoints already list `ji` is skipped; otherwise
`j.vector` is assigned (a side effect visible even without a hit), and the
distance and collinearity tests decide whether to merge and stop. -/
def mergeScan (S : Substrate) (ji : ℕ) : List ℕ → Substrate
  | [] => S
  | i :: rest =>
    let t := getT S i
    if ji ∈ (getJ S t.j1).adjacent then mergeScan S ji rest
    else if ji ∈ (getJ S t.j2).adjacent then mergeScan S ji rest
    else
      let v1 := mergeVec S ji t
      let S1 := modJ S ji fun j => { j with vector := v1 }
      let j_norm := fnorm v1
      -- attachment from outside the tubule's max length is skipped
      if fgtv j_norm t.norm then mergeScan S1 ji rest
      else if fgtc (fdot (funit v1 j_norm) t.unit) (colCheck j_norm) then
        mergeAction S1 ji i t
      else mergeScan S1 ji rest

/-- `Substrate.mergeTubule(j)`: nothing happens unless `j.growing`; a
junction fresh from a split only has its `just_split` flag cleared. -/
def mergeTubule (S : Substrate) (ji : ℕ) : Substrate :=
  let j := getJ S ji
  if j.growing then
    if j.just_split then modJ S ji fun j => { j with just_split := false }
    else mergeScan S ji (List.range S.tubules.length)
  else S

/-- The `t.j1` half of `Substrate.wrapSubstrate` (lines 371-384). -/
def wrapJ1 (S : Substrate) (i : ℕ) : Substrate :=
  let t := getT S i
  if fgtc (getJ S t.j1).position.1 S.width then
    let S := modT S i fun t =>
      let c := t.crossover - 1
      { t with crossover := if c < -1 then -1 else c }
    modJ S t.j1 fun j =>
      let c := j.cross + 1
      { j with cross := if c > 1 then 1 else c }
  else if fltc (getJ S t.j1).position.1 0 then
    let S := modT S i fun t =>
      let c := t.crossover + 1
      { t with crossover := if c > 1 then 1 else c }
    modJ S t.j1 fun j =>
      let c := j.cross - 1
      { j with cross := if c < -1 then -1 else c }
  else S

/-- The `t.j2` half of `Substrate.wrapSubstrate` (lines 386-399). -/
def wrapJ2 (S : Substrate) (i : ℕ) : Substrate :=
  let t := getT S i
  if fgtc (getJ S t.j2).position.1 S.width then
    let S := modT S i fun t =>
      let c := t.crossover + 1
      { t with crossover := if c > 1 then 1 else c }
    modJ S t.j2 fun j =>
      let c := j.cross + 1
      { j with cross := if c > 1 then 1 else c }
  else if fltc (getJ S t.j2).position.1 0 then
    let S := modT S i fun t =>
      let c := t.crossover - 1
      { t with crossover := if c < -1 then -1 else c }
    modJ S t.j2 fun j =>
      let c := j.cross - 1
      { j with cross := if c < -1 then -1 else c }
  else S

/-- `Substrate.wrapSubstrate(t)` for the tubule at index `i`. -/
def wrapSubstrate (S : Substrate) (i : ℕ) : Substrate :=
  if S.wrap_x then wrapJ2 (wrapJ1 S i) i else S

/-- One junction-pass of `updateSubstrate` running `moveJunction` on every
junction (the method touches only the junction itself). -/
def movePass (S : Substrate) : Substrate :=
  { S with junctions := S.junctions.map moveJunction }

/-- One tubule-pass of `updateSubstrate` running `updateTubule` on every
tubule (the method reads junctions and writes only the tubule itself). -/
def updatePass (S : Substrate) : Substrate :=
  { S with tubules := S.tubules.map (updateTubule S.junctions) }

/-- One tubule-pass of `updateSubstrate` running `contractTubule` on every
tubule in order; velocity writes are visible to later tubules. -/
def contractPass (S : Substrate) : Substrate :=
  { S with junctions := S.tubules.foldl contractTubule S.junctions }

/-- One tick of `updateSubstrate` with the registered pipeline
`{moveJunction, updateTubule, contractTubule}`: the junction-tagged pass
runs first, then the tubule-tagged passes in registration order. -/
def tickMUC (S : Substrate) : Substrate := contractPass (updatePass (movePass S))

/-- A tubule whose geometry caches are consistent with its `vector`, i.e.
the state after an `updateTubule` pass. -/
def cachedTubule (i1 i2 : ℕ) (v : FV) (w : ℝ) (cr : ℤ) (hk : ℝ) : Tubule :=
  { j1 := i1, j2 := i2, width := w, crossover := cr, vector := v,
    norm := fnorm v, unit := funit v (fnorm v), hookes := hk, growth := 1 / 2,
    contracting := true, to_remove := false }

/-- An anchored, non-flowing junction is a fixed point of `moveJunction`. -/
lemma moveJunction_frozen (j : Junction) (ha : j.anchor = true) (hf : j.flowing = false) :
    moveJunction j = j := by
  simp [moveJunction, ha, hf]

/-- A contraction step with both endpoints anchored changes nothing. -/
lemma contractTubule_anchored (js : List Junction) (t : Tubule)
    (h1 : (getJl js t.j1).anchor = true) (h2 : (getJl js t.j2).anchor = true) :
    contractTubule js t = js := by
  simp [contractTubule, h1, h2]

/-- A tubule with consistent caches whose recomputed vector equals the
cached one is a fixed point of `updateTubule`. -/
lemma updateTubule_fixed (js : List Junction) (t : Tubule)
    (hv : (updateTubule js t).vector = t.vector)
    (hn : t.norm = fnorm t.vector)
    (hu : t.unit = funit t.vector (fnorm t.vector)) :
    updateTubule js t = t := by
  have h0 : updateTubule js t =
      { t with vector := (updateTubule js t).vector,
               norm := fnorm (updateTubule js t).vector,
               unit := funit (updateTubule js t).vector
                 (fnorm (updateTubule js t).vector) } := rfl
  rw [h0, hv, ← hu, ← hn]

/-- A substrate on which all three passes are inert is a fixed point of the
move/update/contract tick. -/
lemma tickMUC_fixed (S : Substrate)
    (hm : S.junctions.map moveJunction = S.junctions)
    (hu : S.tubules.map (updateTubule S.junctions) = S.tubules)
    (hc : S.tubules.foldl contractTubule S.junctions = S.junctions) :
    tickMUC S = S := by
  have h1 : movePass S = S := by unfold movePass; rw [hm]
  have h2 : updatePass S = S := by unfold updatePass; rw [hu]
  have h3 : contractPass S = S := by unfold contractPass; rw [hc]
  rw [tickMUC, h1, h2, h3]

/-- C10: for an anchored junction, `moveJunction` leaves `velocity` and
`cross` unchanged, leaves `position` unchanged when `flowing` is false, and
still adds `flowrate` to `position` when `flowing` is true. -/
theorem c10_anchored_move (j : Junction) (h : j.anchor = true) :
    (moveJunction j).velocity = j.velocity ∧ (moveJunction j).cross = j.cross ∧
    (j.flowing = false → (moveJunction j).position = j.position) ∧
    (j.flowing = true → (moveJunction j).position = vadd j.position j.flowrate) := by
  cases hf : j.flowing <;> simp [moveJunction, h, hf]

/-- Witness for C10 at a concrete anchored junction. -/
def c10j : Junction := { mkJunction (some 3) (some 4) with anchor := true }

theorem c10_anchored_move_witness :
    (moveJunction c10j).velocity = c10j.velocity ∧
    (moveJunction c10j).cross = c10j.cross ∧
    (c10j.flowing = false → (moveJunction c10j).position = c10j.position) ∧
    (c10j.flowing = true →
      (moveJunction c10j).position = vadd c10j.position c10j.flowrate) :=
  c10_anchored_move c10j rfl

/-- C4: immediately after `updateTubule`, the cached vector equals exactly
`j2.position - j1.position` plus `width * crossover` on the x component. -/
theorem c4_update_vector (js : List Junction) (t : Tubule) (a b c d e f : ℝ)
    (h1 : (getJl js t.j1).position = (some a, some b))
    (h2 : (getJl js t.j2).position = (some c, some d))
    (hv : t.vector = (some e, some f)) :
    (updateTubule js t).vector =
      (some (c - a + t.width * (t.crossover : ℝ)), some (d - b)) := by
  simp only [updateTubule, h1, h2, hv, vsub, vadd, fadd, fsub, Prod.mk.injEq]
  constructor <;> · congr 1; ring

/-- Witness inputs for C4: junctions at (1,2) and (4,6), a tubule with
width 7 and crossover 1. -/
def js4 : List Junction := [mkJunction (some 1) (some 2), mkJunction (some 4) (some 6)]

def t4 : Tubule := cachedTubule 0 1 (some 3, some 4) 7 1 0

theorem c4_update_vector_witness :
    (updateTubule js4 t4).vector =
      (some (4 - 1 + t4.width * (t4.crossover : ℝ)), some (6 - 2)) :=
  c4_update_vector js4 t4 1 2 4 6 3 4 rfl rfl rfl

/-- The C3 scenario: a 400x400 substrate with engine defaults, four anchored
junctions at (120,0), (310,0), (95,400), (340,400), and the two vertical
tubules 0-2 and 1-3 created through the factory operations. -/
def S3 : Substrate :=
  let S : Substrate := { width := 400, height := 400 }
  let P1 := addJunction S (some 120) (some 0) (some true) none none none none none none
  let P2 := addJunction P1.1 (some 310) (some 0) (some true) none none none none none none
  let P3 := addJunction P2.1 (some 95) (some 400) (some true) none none none none none none
  let P4 := addJunction P3.1 (some 340) (some 400) (some true) none none none none none none
  let Q1 := addTubule P4.1 0 2 none none none none
  (addTubule Q1.1 1 3 none none none none).1

/-- Explicit form of the junctions `S3` contains. -/
def j3 (x y : ℝ) (adj : List ℕ) : Junction :=
  { position := (some x, some y), velocity := (some 0, some 0),
    vector := (some 0, some 0), flowing := false, growing := false,
    anchor := true, flowrate := (some 0, some (-(1 / 10000000))),
    dragrate := 99 / 100, cross := 0, width := 400, adjacent := adj,
    just_split := true }

/-- Explicit form of the tubules `S3` contains. -/
def t3 (i1 i2 : ℕ) (p1 p2 : FV) : Tubule :=
  { mkTubule i1 i2 p1 p2 with
    hookes := 5 / 100000, growth := 1 / 2, width := 400, crossover := 0 }

lemma S3_junctions :
    S3.junctions = [j3 120 0 [2], j3 310 0 [3], j3 95 400 [0], j3 340 400 [1]] := rfl

lemma S3_tubules :
    S3.tubules = [t3 0 2 (some 120, some 0) (some 95, some 400),
      t3 1 3 (some 310, some 0) (some 340, some 400)] := rfl

lemma upd_t3a :
    updateTubule S3.junctions (t3 0 2 (some 120, some 0) (some 95, some 400))
      = t3 0 2 (some 120, some 0) (some 95, some 400) := by
  apply updateTubule_fixed
  · rw [c4_update_vector S3.junctions
      (t3 0 2 (some 120, some 0) (some 95, some 400)) 120 0 95 400
      (95 - 120 + 0 * ((0 : ℤ) : ℝ)) (400 - 0) rfl rfl rfl]
    show _ = ((some ((95 : ℝ) - 120 + 0 * ((0 : ℤ) : ℝ)) : F),
      (some ((400 : ℝ) - 0) : F))
    simp [t3, mkTubule]
  · rfl
  · rfl

lemma upd_t3b :
    updateTubule S3.junctions (t3 1 3 (some 310, some 0) (some 340, some 400))
      = t3 1 3 (some 310, some 0) (some 340, some 400) := by
  apply updateTubule_fixed
  · rw [c4_update_vector S3.junctions
      (t3 1 3 (some 310, some 0) (some 340, some 400)) 310 0 340 400
      (340 - 310 + 0 * ((0 : ℤ) : ℝ)) (400 - 0) rfl rfl rfl]
    show _ = ((some ((340 : ℝ) - 310 + 0 * ((0 : ℤ) : ℝ)) : F),
      (some ((400 : ℝ) - 0) : F))
    simp [t3, mkTubule]
  · rfl
  · rfl

/-- The C3 scenario state is a fixed point of the whole tick: anchored
endpoints are immune both to integration and to contraction. -/
lemma tick_S3_fixed : tickMUC S3 = S3 := by
  apply tickMUC_fixed
  · rw [S3_junctions]
    simp only [List.map_cons, List.map_nil]
    rw [moveJunction_frozen (j3 120 0 [2]) rfl rfl,
      moveJunction_frozen (j3 310 0 [3]) rfl rfl,
      moveJunction_frozen (j3 95 400 [0]) rfl rfl,
      moveJunction_frozen (j3 340 400 [1]) rfl rfl]
  · rw [S3_tubules]
    simp only [List.map_cons, List.map_nil]
    rw [upd_t3a, upd_t3b]
  · rw [S3_tubules]
    simp only [List.foldl_cons, List.foldl_nil]
    rw [contractTubule_anchored S3.junctions
        (t3 0 2 (some 120, some 0) (some 95, some 400)) rfl rfl,
      contractTubule_anchored S3.junctions
        (t3 1 3 (some 310, some 0) (some 340, some 400)) rfl rfl]

/-- C3 (amended): in the anchored two-tubule scenario with the
move/update/contract pipeline, after 1000 ticks each tubule's norm equals
its initial value — anchored endpoints are immune to contraction, so the
norms do not decrease at all. -/
theorem c3_anchored_norms_unchanged :
    (getT (tickMUC^[1000] S3) 0).norm = (getT S3 0).norm ∧
    (getT (tickMUC^[1000] S3) 1).norm = (getT S3 1).norm := by
  rw [Function.iterate_fixed tick_S3_fixed 1000]
  exact ⟨rfl, rfl⟩

lemma fltv_irrefl (a : F) : ¬ fltv a a := by
  cases a <;> simp [fltv]

/-- C3 counterexample: after 1000 ticks of the scenario pipeline neither
tubule's norm is strictly smaller than its initial value. -/
theorem c3_counterexample :
    ¬ fltv (getT (tickMUC^[1000] S3) 0).norm (getT S3 0).norm ∧
    ¬ fltv (getT (tickMUC^[1000] S3) 1).norm (getT S3 1).norm := by
  rw [Function.iterate_fixed tick_S3_fixed 1000]
  exact ⟨fltv_irrefl _, fltv_irrefl _⟩


/-- C9 substrate: width 400 with two junctions. -/
def S9 : Substrate :=
  { width := 400, height := 400,
    junctions := [mkJunction (some 100) (some 100), mkJunction (some 200) (some 100)] }

/-- C9: `addTubule` populates the tubule's `width` from the `growth`
override (`kargs.get('growth', self.width)`, source line 170).  With a
`growth` override of 7 and a `width` override of 5 the created tubule's
width is 7, and with only a `width` override of 5 it is the substrate
default 400 — the `width` override is never applied. -/
theorem c9_width_override_bug :
    (getT (addTubule S9 0 1 none (some 7) (some 5) none).1 0).width = 7 ∧
    (getT (addTubule S9 0 1 none none (some 5) none).1 0).width = 400 ∧
    (7 : ℝ) ≠ 5 ∧ (400 : ℝ) ≠ 5 := by
  refine ⟨rfl, rfl, by norm_num, by norm_num⟩

/-- C6 (amended): with coincident (finite) endpoints and no crossover
correction, `updateTubule` computes a zero norm and then performs the
division anyway: the unit vector becomes NaN (`none` components), not the
zero vector, and the same holds for the `Tubule` constructor. -/
theorem c6_zero_norm_unit_nan (js : List Junction) (t : Tubule) (a b e f : ℝ)
    (h1 : (getJl js t.j1).position = (some a, some b))
    (h2 : (getJl js t.j2).position = (some a, some b))
    (hv : t.vector = (some e, some f)) (hc : t.crossover = 0) :
    (updateTubule js t).norm = some 0 ∧
    (updateTubule js t).unit = (none, none) ∧
    (mkTubule t.j1 t.j2 (some a, some b) (some a, some b)).unit = (none, none) := by
  have hvec : (updateTubule js t).vector = (some 0, some 0) := by
    simp only [updateTubule, h1, h2, hv, hc, vsub, vadd, fadd, fsub, Int.cast_zero,
      Prod.mk.injEq]
    constructor <;> · congr 1; ring
  have hnorm : (updateTubule js t).norm = some 0 := by
    have h0 : (updateTubule js t).norm = fnorm (updateTubule js t).vector := rfl
    rw [h0, hvec]
    simp [fnorm]
  have hunit : (updateTubule js t).unit = (none, none) := by
    have h0 : (updateTubule js t).unit =
        funit (updateTubule js t).vector (fnorm (updateTubule js t).vector) := rfl
    rw [h0, hvec]
    simp [funit, fnorm, fdiv]
  refine ⟨hnorm, hunit, ?_⟩
  simp only [mkTubule, vsub, fsub, fadd]
  rw [show a - a + 0 * ((0 : ℤ) : ℝ) = 0 by push_cast; ring,
    show b - b = 0 by ring]
  simp [funit, fnorm, fdiv]

/-- Witness inputs for C6: two junctions at the same point (3,4). -/
def js6 : List Junction := [mkJunction (some 3) (some 4), mkJunction (some 3) (some 4)]

def t6 : Tubule := cachedTubule 0 1 (some 0, some 0) 400 0 0

theorem c6_zero_norm_unit_nan_witness :
    (updateTubule js6 t6).norm = some 0 ∧
    (updateTubule js6 t6).unit = (none, none) ∧
    (mkTubule t6.j1 t6.j2 (some 3, some 4) (some 3, some 4)).unit = (none, none) :=
  c6_zero_norm_unit_nan js6 t6 3 4 0 0 rfl rfl rfl rfl

/-- C6 counterexample: a tubule constructed with coincident endpoints gets
a NaN unit vector, not the zero vector, and the operation is not skipped. -/
theorem c6_counterexample :
    (mkTubule 0 1 (some 3, some 4) (some 3, some 4)).unit ≠ (some 0, some 0) ∧
    (mkTubule 0 1 (some 3, some 4) (some 3, some 4)).unit = (none, none) := by
  have h : (mkTubule 0 1 (some 3, some 4) (some 3, some 4)).unit = (none, none) := by
    simp only [mkTubule, vsub, fsub, fadd]
    rw [show (3 : ℝ) - 3 + 0 * ((0 : ℤ) : ℝ) = 0 by push_cast; ring,
      show (4 : ℝ) - 4 = 0 by ring]
    simp [funit, fnorm, fdiv]
  rw [h]
  exact ⟨by simp, rfl⟩

/-- Evaluation of `fnorm` at a concrete vector with a perfect-square norm. -/
lemma fnorm_eval (x y r : ℝ) (h : x ^ 2 + y ^ 2 = r ^ 2) (hr : 0 ≤ r) :
    fnorm (some x, some y) = some r := by
  simp only [fnorm]
  rw [h, Real.sqrt_sq hr]

/-- One step of the split scan when the head tubule's norm is finite. -/
lemma findSplit_cons (t : Tubule) (ts : List Tubule) (i : ℕ) (r n : ℝ)
    (hn : t.norm = some n) :
    findSplit r (t :: ts) i =
      if r > n then findSplit (r - n) ts (i + 1) else some (i, r) := by
  simp only [findSplit, hn]

/-- C5 (amended): whenever every cached norm is a finite nonnegative value
and the drawn value `r` lies in `[0, L]` with `L = sum of norms > 0`, the
scan of `splitTubule` always selects a tubule.  There is no fallback branch
in the code: the guarantee comes solely from `r` not exceeding `L`, and an
`r` beyond every residual norm makes the scan come back empty-handed. -/
theorem c5_scan_finds_target (ts : List Tubule) (ns : List ℝ) (r : ℝ) (i : ℕ)
    (hmap : ts.map Tubule.norm = ns.map some)
    (hnn : ∀ n ∈ ns, 0 ≤ n)
    (h0 : 0 ≤ r) (h1 : r ≤ ns.sum) (hpos : 0 < ns.sum) :
    ∃ p, findSplit r ts i = some p := by
  induction ts generalizing ns r i with
  | nil =>
    cases ns with
    | nil => simp at hpos
    | cons n ns => simp at hmap
  | cons t ts ih =>
    cases ns with
    | nil => simp at hmap
    | cons n ns =>
      simp only [List.map_cons, List.cons.injEq] at hmap
      obtain ⟨hn, hmap2⟩ := hmap
      rw [findSplit_cons t ts i r n hn]
      by_cases hr : r > n
      · rw [if_pos hr]
        have hn0 : 0 ≤ n := hnn n (by simp)
        have hsum : r ≤ n + ns.sum := by simpa using h1
        refine ih ns (r - n) (i + 1) hmap2 (fun m hm => hnn m (by simp [hm]))
          (by linarith) (by linarith) (by linarith)
      · rw [if_neg hr]
        exact ⟨(i, r), rfl⟩

/-- C5/C7 concrete substrate: two junctions at distance 10 joined by one
tubule with consistent caches. -/
def S5 : Substrate :=
  { width := 400, height := 400,
    junctions := [mkJunction (some 0) (some 0), mkJunction (some 10) (some 0)],
    tubules := [cachedTubule 0 1 (some 10, some 0) 400 0 (5 / 100000)] }

lemma ct5_norm : (cachedTubule 0 1 (some 10, some 0) 400 0 (5 / 100000)).norm = some 10 := by
  show fnorm (some 10, some 0) = some 10
  exact fnorm_eval 10 0 10 (by norm_num) (by norm_num)

lemma S5_norm : (getT S5 0).norm = some 10 := ct5_norm

theorem c5_scan_finds_target_witness :
    (S5.tubules.map Tubule.norm = [(10 : ℝ)].map some ∧
      (∀ n ∈ [(10 : ℝ)], 0 ≤ n) ∧ (0 : ℝ) ≤ 4 ∧
      (4 : ℝ) ≤ [(10 : ℝ)].sum ∧ (0 : ℝ) < [(10 : ℝ)].sum) ∧
    ∃ p, findSplit 4 S5.tubules 0 = some p := by
  have hmap : S5.tubules.map Tubule.norm = [(10 : ℝ)].map some := by
    show [fnorm (some 10, some 0)] = _
    rw [fnorm_eval 10 0 10 (by norm_num) (by norm_num)]
    rfl
  refine ⟨⟨hmap, by norm_num, by norm_num, by norm_num, by norm_num⟩, ?_⟩
  exact c5_scan_finds_target S5.tubules [10] 4 0 hmap (by norm_num)
    (by norm_num) (by norm_num) (by norm_num)

/-- C5 counterexample: on a substrate whose single tubule has norm 10
(total length L = 10 > 0), a drawn value of 15 — the "r greater than every
norm" situation for which the claim promises a fallback split of the last
tubule — makes `splitTubule` return the substrate unchanged: there is no
fallback and no split is performed. -/
theorem c5_counterexample :
    (getT S5 0).norm = some 10 ∧ splitTubule S5 15 1 = S5 := by
  refine ⟨S5_norm, ?_⟩
  have hs : findSplit 15 S5.tubules 0 = none := by
    show findSplit 15 [cachedTubule 0 1 (some 10, some 0) 400 0 (5 / 100000)] 0 = none
    rw [findSplit_cons _ _ _ _ 10 ct5_norm, if_pos (by norm_num : (15 : ℝ) > 10)]
    rfl
  show (match findSplit 15 S5.tubules 0 with
    | none => S5
    | some p => doSplit S5 p.1 p.2 1) = S5
  rw [hs]

/-- C7 (amended): `splitTubule` is a no-op exactly when the tubule
collection is empty (then the scan finds nothing); when zero-length tubules
are present the scan can select one and the split goes ahead. -/
theorem c7_empty_split_noop (S : Substrate) (r c : ℝ) (h : S.tubules = []) :
    splitTubule S r c = S := by
  show (match findSplit r S.tubules 0 with
    | none => S
    | some p => doSplit S p.1 p.2 c) = S
  rw [h]
  rfl

theorem c7_empty_split_noop_witness :
    splitTubule { width := 400, height := 400 } 3 1 = { width := 400, height := 400 } :=
  c7_empty_split_noop { width := 400, height := 400 } 3 1 rfl

lemma addJunction_junctions_length (S : Substrate) (x y : F)
    (a g fl : Option Bool) (fr : Option FV) (d w : Option ℝ) (c : Option ℤ) :
    ((addJunction S x y a g fl fr d w c).1).junctions.length
      = S.junctions.length + 1 := by
  simp [addJunction]

lemma addJunction_tubules (S : Substrate) (x y : F)
    (a g fl : Option Bool) (fr : Option FV) (d w : Option ℝ) (c : Option ℤ) :
    ((addJunction S x y a g fl fr d w c).1).tubules = S.tubules := rfl

lemma modJ_junctions_length (S : Substrate) (i : ℕ) (f : Junction → Junction) :
    (modJ S i f).junctions.length = S.junctions.length := by
  simp [modJ, setJl]

lemma modJ_tubules (S : Substrate) (i : ℕ) (f : Junction → Junction) :
    (modJ S i f).tubules = S.tubules := rfl

lemma modT_junctions (S : Substrate) (i : ℕ) (f : Tubule → Tubule) :
    (modT S i f).junctions = S.junctions := rfl

lemma modT_tubules_length (S : Substrate) (i : ℕ) (f : Tubule → Tubule) :
    (modT S i f).tubules.length = S.tubules.length := by
  simp [modT]

lemma addTubule_junctions_length (S : Substrate) (i1 i2 : ℕ)
    (h g w : Option ℝ) (c : Option ℤ) :
    ((addTubule S i1 i2 h g w c).1).junctions.length = S.junctions.length := by
  simp [addTubule, modJ, setJl]

lemma addTubule_tubules_length (S : Substrate) (i1 i2 : ℕ)
    (h g w : Option ℝ) (c : Option ℤ) :
    ((addTubule S i1 i2 h g w c).1).tubules.length = S.tubules.length + 1 := by
  simp [addTubule, modJ, setJl]

lemma splitTopo_junctions_length (S : Substrate) (i : ℕ) (p1 p2 : FV)
    (c1 c2 c3 : ℤ) :
    (splitTopo S i p1 p2 c1 c2 c3).junctions.length = S.junctions.length + 2 := by
  simp only [splitTopo, modT_junctions, addTubule_junctions_length,
    modJ_junctions_length, addJunction_junctions_length]

lemma splitTopo_tubules_length (S : Substrate) (i : ℕ) (p1 p2 : FV)
    (c1 c2 c3 : ℤ) :
    (splitTopo S i p1 p2 c1 c2 c3).tubules.length = S.tubules.length + 3 := by
  simp only [splitTopo, modT_tubules_length, addTubule_tubules_length,
    modJ_tubules, addJunction_tubules]

/-- A split always creates exactly two junctions. -/
lemma doSplit_junctions_length (S : Substrate) (i : ℕ) (r c : ℝ) :
    (doSplit S i r c).junctions.length = S.junctions.length + 2 := by
  simp only [doSplit, splitTopo_junctions_length]

/-- A split always creates exactly three tubules. -/
lemma doSplit_tubules_length (S : Substrate) (i : ℕ) (r c : ℝ) :
    (doSplit S i r c).tubules.length = S.tubules.length + 3 := by
  simp only [doSplit, splitTopo_tubules_length]

lemma getT_modT_self (S : Substrate) (i : ℕ) (f : Tubule → Tubule)
    (h : i < S.tubules.length) :
    getT (modT S i f) i = f (getT S i) := by
  show (S.tubules.set i (f (getT S i))).getD i default = _
  rw [List.getD_eq_getElem _ _ (by simpa using h)]
  exact List.getElem_set_self _

lemma splitTopo_marks (S : Substrate) (i : ℕ) (p1 p2 : FV) (c1 c2 c3 : ℤ)
    (h : i < S.tubules.length) :
    (getT (splitTopo S i p1 p2 c1 c2 c3) i).to_remove = true := by
  simp only [splitTopo]
  rw [getT_modT_self _ _ _ (by
    simp only [addTubule_tubules_length, modJ_tubules, addJunction_tubules]
    omega)]

/-- A split marks the selected tubule for removal. -/
lemma doSplit_marks (S : Substrate) (i : ℕ) (r c : ℝ)
    (h : i < S.tubules.length) :
    (getT (doSplit S i r c) i).to_remove = true := by
  simp only [doSplit]
  exact splitTopo_marks S i _ _ _ _ _ h

/-- C7/C6 concrete substrate: a single zero-length tubule between two
junctions at the same point. -/
def S7 : Substrate :=
  { width := 400, height := 400,
    junctions := [mkJunction (some 50) (some 50), mkJunction (some 50) (some 50)],
    tubules := [cachedTubule 0 1 (some 0, some 0) 400 0 (5 / 100000)] }

lemma ct7_norm : (cachedTubule 0 1 (some 0, some 0) 400 0 (5 / 100000)).norm = some 0 := by
  show fnorm (some 0, some 0) = some 0
  exact fnorm_eval 0 0 0 (by norm_num) (by norm_num)

/-- C7 counterexample: with one zero-length tubule the total system length
is 0, the drawn value is necessarily 0, and `splitTubule` is NOT a no-op:
the scan selects the zero-length tubule (`0 > 0` fails on the first
iteration), two junctions and three tubules are created, and the tubule is
marked for removal. -/
theorem c7_counterexample :
    S7.tubules.map Tubule.norm = [some 0] ∧
    (splitTubule S7 0 1).junctions.length = 4 ∧
    (splitTubule S7 0 1).tubules.length = 4 ∧
    (getT (splitTubule S7 0 1) 0).to_remove = true := by
  have hmap : S7.tubules.map Tubule.norm = [some 0] := by
    show [(cachedTubule 0 1 (some 0, some 0) 400 0 (5 / 100000)).norm] = [some 0]
    rw [ct7_norm]
  have hsplit : splitTubule S7 0 1 = doSplit S7 0 0 1 := by
    have hs : findSplit 0 S7.tubules 0 = some (0, 0) := by
      show findSplit 0 [cachedTubule 0 1 (some 0, some 0) 400 0 (5 / 100000)] 0
        = some (0, 0)
      rw [findSplit_cons _ _ _ _ 0 ct7_norm, if_neg (by norm_num : ¬ ((0 : ℝ) > 0))]
    show (match findSplit 0 S7.tubules 0 with
      | none => S7
      | some p => doSplit S7 p.1 p.2 1) = doSplit S7 0 0 1
    rw [hs]
  rw [hsplit]
  refine ⟨hmap, ?_, ?_, ?_⟩
  · rw [doSplit_junctions_length]
    rfl
  · rw [doSplit_tubules_length]
    rfl
  · exact doSplit_marks S7 0 0 1 (by simp [S7])

lemma getJ_modT (S : Substrate) (i a : ℕ) (f : Tubule → Tubule) :
    getJ (modT S i f) a = getJ S a := rfl

lemma getT_modJ (S : Substrate) (b i : ℕ) (f : Junction → Junction) :
    getT (modJ S b f) i = getT S i := rfl

lemma getJ_modJ_self (S : Substrate) (a : ℕ) (f : Junction → Junction)
    (h : a < S.junctions.length) :
    getJ (modJ S a f) a = f (getJ S a) := by
  show (S.junctions.set a (f (getJl S.junctions a))).getD a default = _
  rw [List.getD_eq_getElem _ _ (by simpa using h)]
  exact List.getElem_set_self _

lemma getJ_modJ_ne (S : Substrate) (b a : ℕ) (f : Junction → Junction)
    (hne : a ≠ b) :
    getJ (modJ S b f) a = getJ S a := by
  show (S.junctions.set b _).getD a default = S.junctions.getD a default
  by_cases h : a < S.junctions.length
  · rw [List.getD_eq_getElem _ _ (by simpa using h), List.getD_eq_getElem _ _ h]
    exact List.getElem_set_ne (fun hba => hne hba.symm) ..
  · rw [List.getD_eq_default _ _ (by simpa using Nat.le_of_not_lt h),
      List.getD_eq_default _ _ (Nat.le_of_not_lt h)]

lemma wrapJ1_bounds (S : Substrate) (i : ℕ)
    (hi : i < S.tubules.length)
    (hj1 : (getT S i).j1 < S.junctions.length)
    (hc : -1 ≤ (getT S i).crossover ∧ (getT S i).crossover ≤ 1)
    (h1 : -1 ≤ (getJ S (getT S i).j1).cross ∧ (getJ S (getT S i).j1).cross ≤ 1)
    (h2 : -1 ≤ (getJ S (getT S i).j2).cross ∧ (getJ S (getT S i).j2).cross ≤ 1) :
    (getT (wrapJ1 S i) i).j1 = (getT S i).j1 ∧
    (getT (wrapJ1 S i) i).j2 = (getT S i).j2 ∧
    (wrapJ1 S i).tubules.length = S.tubules.length ∧
    (wrapJ1 S i).junctions.length = S.junctions.length ∧
    (-1 ≤ (getT (wrapJ1 S i) i).crossover ∧ (getT (wrapJ1 S i) i).crossover ≤ 1) ∧
    (-1 ≤ (getJ (wrapJ1 S i) (getT S i).j1).cross ∧
      (getJ (wrapJ1 S i) (getT S i).j1).cross ≤ 1) ∧
    (-1 ≤ (getJ (wrapJ1 S i) (getT S i).j2).cross ∧
      (getJ (wrapJ1 S i) (getT S i).j2).cross ≤ 1) := by
  by_cases hA : fgtc (getJ S (getT S i).j1).position.1 S.width
  · simp only [wrapJ1, if_pos hA]
    have hT : getT (modJ (modT S i fun t =>
        { t with crossover := if t.crossover - 1 < -1 then -1 else t.crossover - 1 })
          (getT S i).j1 fun j =>
        { j with cross := if j.cross + 1 > 1 then 1 else j.cross + 1 }) i
        = { getT S i with crossover :=
            if (getT S i).crossover - 1 < -1 then -1 else (getT S i).crossover - 1 } := by
      rw [getT_modJ, getT_modT_self S i _ hi]
    have hJ1len : (getT S i).j1 < (modT S i fun t =>
        { t with crossover := if t.crossover - 1 < -1 then -1 else t.crossover - 1 }
        : Substrate).junctions.length := hj1
    refine ⟨by rw [hT], by rw [hT], by simp [modJ, setJl, modT], by simp [modJ, setJl, modT], ?_, ?_, ?_⟩
    · rw [hT]
      constructor <;> · simp only; split_ifs <;> omega
    · rw [getJ_modJ_self _ _ _ hJ1len, getJ_modT]
      constructor <;> · simp only; split_ifs <;> omega
    · by_cases he : (getT S i).j2 = (getT S i).j1
      · rw [he, getJ_modJ_self _ _ _ hJ1len, getJ_modT]
        constructor <;> · simp only; split_ifs <;> omega
      · rw [getJ_modJ_ne _ _ _ _ he, getJ_modT]
        exact h2
  · by_cases hB : fltc (getJ S (getT S i).j1).position.1 0
    · simp only [wrapJ1, if_neg hA, if_pos hB]
      have hT : getT (modJ (modT S i fun t =>
          { t with crossover := if t.crossover + 1 > 1 then 1 else t.crossover + 1 })
            (getT S i).j1 fun j =>
          { j with cross := if j.cross - 1 < -1 then -1 else j.cross - 1 }) i
          = { getT S i with crossover :=
              if (getT S i).crossover + 1 > 1 then 1 else (getT S i).crossover + 1 } := by
        rw [getT_modJ, getT_modT_self S i _ hi]
      have hJ1len : (getT S i).j1 < (modT S i fun t =>
          { t with crossover := if t.crossover + 1 > 1 then 1 else t.crossover + 1 }
          : Substrate).junctions.length := hj1
      refine ⟨by rw [hT], by rw [hT], by simp [modJ, setJl, modT], by simp [modJ, setJl, modT], ?_, ?_, ?_⟩
      · rw [hT]
        constructor <;> · simp only; split_ifs <;> omega
      · rw [getJ_modJ_self _ _ _ hJ1len, getJ_modT]
        constructor <;> · simp only; split_ifs <;> omega
      · by_cases he : (getT S i).j2 = (getT S i).j1
        · rw [he, getJ_modJ_self _ _ _ hJ1len, getJ_modT]
          constructor <;> · simp only; split_ifs <;> omega
        · rw [getJ_modJ_ne _ _ _ _ he, getJ_modT]
          exact h2
    · simp only [wrapJ1, if_neg hA, if_neg hB]
      refine ⟨by trivial, by trivial, by trivial, by trivial, hc, h1, h2⟩

lemma wrapJ2_bounds (S : Substrate) (i : ℕ)
    (hi : i < S.tubules.length)
    (hj2 : (getT S i).j2 < S.junctions.length)
    (hc : -1 ≤ (getT S i).crossover ∧ (getT S i).crossover ≤ 1)
    (h1 : -1 ≤ (getJ S (getT S i).j1).cross ∧ (getJ S (getT S i).j1).cross ≤ 1)
    (h2 : -1 ≤ (getJ S (getT S i).j2).cross ∧ (getJ S (getT S i).j2).cross ≤ 1) :
    (-1 ≤ (getT (wrapJ2 S i) i).crossover ∧ (getT (wrapJ2 S i) i).crossover ≤ 1) ∧
    (-1 ≤ (getJ (wrapJ2 S i) (getT S i).j1).cross ∧
      (getJ (wrapJ2 S i) (getT S i).j1).cross ≤ 1) ∧
    (-1 ≤ (getJ (wrapJ2 S i) (getT S i).j2).cross ∧
      (getJ (wrapJ2 S i) (getT S i).j2).cross ≤ 1) := by
  by_cases hA : fgtc (getJ S (getT S i).j2).position.1 S.width
  · simp only [wrapJ2, if_pos hA]
    have hT : getT (modJ (modT S i fun t =>
        { t with crossover := if t.crossover + 1 > 1 then 1 else t.crossover + 1 })
          (getT S i).j2 fun j =>
        { j with cross := if j.cross + 1 > 1 then 1 else j.cross + 1 }) i
        = { getT S i with crossover :=
            if (getT S i).crossover + 1 > 1 then 1 else (getT S i).crossover + 1 } := by
      rw [getT_modJ, getT_modT_self S i _ hi]
    have hJ2len : (getT S i).j2 < (modT S i fun t =>
        { t with crossover := if t.crossover + 1 > 1 then 1 else t.crossover + 1 }
        : Substrate).junctions.length := hj2
    refine ⟨?_, ?_, ?_⟩
    · rw [hT]
      constructor <;> · simp only; split_ifs <;> omega
    · by_cases he : (getT S i).j1 = (getT S i).j2
      · rw [he, getJ_modJ_self _ _ _ hJ2len, getJ_modT]
        constructor <;> · simp only; split_ifs <;> omega
      · rw [getJ_modJ_ne _ _ _ _ he, getJ_modT]
        exact h1
    · rw [getJ_modJ_self _ _ _ hJ2len, getJ_modT]
      constructor <;> · simp only; split_ifs <;> omega
  · by_cases hB : fltc (getJ S (getT S i).j2).position.1 0
    · simp only [wrapJ2, if_neg hA, if_pos hB]
      have hT : getT (modJ (modT S i fun t =>
          { t with crossover := if t.crossover - 1 < -1 then -1 else t.crossover - 1 })
            (getT S i).j2 fun j =>
          { j with cross := if j.cross - 1 < -1 then -1 else j.cross - 1 }) i
          = { getT S i with crossover :=
              if (getT S i).crossover - 1 < -1 then -1 else (getT S i).crossover - 1 } := by
        rw [getT_modJ, getT_modT_self S i _ hi]
      have hJ2len : (getT S i).j2 < (modT S i fun t =>
          { t with crossover := if t.crossover - 1 < -1 then -1 else t.crossover - 1 }
          : Substrate).junctions.length := hj2
      refine ⟨?_, ?_, ?_⟩
      · rw [hT]
        constructor <;> · simp only; split_ifs <;> omega
      · by_cases he : (getT S i).j1 = (getT S i).j2
        · rw [he, getJ_modJ_self _ _ _ hJ2len, getJ_modT]
          constructor <;> · simp only; split_ifs <;> omega
        · rw [getJ_modJ_ne _ _ _ _ he, getJ_modT]
          exact h1
      · rw [getJ_modJ_self _ _ _ hJ2len, getJ_modT]
        constructor <;> · simp only; split_ifs <;> omega
    · simp only [wrapJ2, if_neg hA, if_neg hB]
      exact ⟨hc, h1, h2⟩

/-- C8: a wrap pass on a live tubule whose `crossover` and endpoint `cross`
accumulators are within `[-1, 1]` keeps all three within `[-1, 1]`: every
increment and decrement in `wrapSubstrate` is immediately clamped. -/
theorem c8_wrap_bounds (S : Substrate) (i : ℕ)
    (hi : i < S.tubules.length)
    (hj1 : (getT S i).j1 < S.junctions.length)
    (hj2 : (getT S i).j2 < S.junctions.length)
    (hc : -1 ≤ (getT S i).crossover ∧ (getT S i).crossover ≤ 1)
    (h1 : -1 ≤ (getJ S (getT S i).j1).cross ∧ (getJ S (getT S i).j1).cross ≤ 1)
    (h2 : -1 ≤ (getJ S (getT S i).j2).cross ∧ (getJ S (getT S i).j2).cross ≤ 1) :
    (-1 ≤ (getT (wrapSubstrate S i) i).crossover ∧
      (getT (wrapSubstrate S i) i).crossover ≤ 1) ∧
    (-1 ≤ (getJ (wrapSubstrate S i) (getT S i).j1).cross ∧
      (getJ (wrapSubstrate S i) (getT S i).j1).cross ≤ 1) ∧
    (-1 ≤ (getJ (wrapSubstrate S i) (getT S i).j2).cross ∧
      (getJ (wrapSubstrate S i) (getT S i).j2).cross ≤ 1) := by
  by_cases hw : S.wrap_x
  · have W1 := wrapJ1_bounds S i hi hj1 hc h1 h2
    obtain ⟨e1, e2, eT, eJ, b0, b1, b2⟩ := W1
    have W2 := wrapJ2_bounds (wrapJ1 S i) i (by rw [eT]; exact hi)
      (by rw [e2, eJ]; exact hj2) b0 (by rw [e1]; exact b1) (by rw [e2]; exact b2)
    rw [e1, e2] at W2
    simpa [wrapSubstrate, hw] using W2
  · simp only [wrapSubstrate, if_neg hw]
    exact ⟨hc, h1, h2⟩

/-- C8 concrete substrate: junction 0 sits at x = 405, beyond the right
boundary of a width-400 substrate. -/
def S8 : Substrate :=
  { width := 400, height := 400,
    junctions := [mkJunction (some 405) (some 50), mkJunction (some 200) (some 50)],
    tubules := [cachedTubule 0 1 (some (-205), some 0) 400 0 (5 / 100000)] }

theorem c8_wrap_bounds_witness :
    (-1 ≤ (getT (wrapSubstrate S8 0) 0).crossover ∧
      (getT (wrapSubstrate S8 0) 0).crossover ≤ 1) ∧
    (-1 ≤ (getJ (wrapSubstrate S8 0) (getT S8 0).j1).cross ∧
      (getJ (wrapSubstrate S8 0) (getT S8 0).j1).cross ≤ 1) ∧
    (-1 ≤ (getJ (wrapSubstrate S8 0) (getT S8 0).j2).cross ∧
      (getJ (wrapSubstrate S8 0) (getT S8 0).j2).cross ≤ 1) :=
  c8_wrap_bounds S8 0 (by decide) (by decide) (by decide)
    ⟨by decide, by decide⟩ ⟨by decide, by decide⟩ ⟨by decide, by decide⟩

/-- Number of adjacency entries for junction `b` in junction `a`'s list. -/
def adjCount (S : Substrate) (a b : ℕ) : ℕ := ((getJ S a).adjacent).count b

/-- Adjacency symmetry, counted with multiplicity: junction `a` lists `b`
as often as `b` lists `a`.  It implies the spec's membership form. -/
def SymAdj (S : Substrate) : Prop := ∀ a b, adjCount S a b = adjCount S b a

lemma adjCount_out (S : Substrate) (a b : ℕ) (h : S.junctions.length ≤ a) :
    adjCount S a b = 0 := by
  unfold adjCount getJ getJl
  rw [List.getD_eq_default _ _ h]
  rfl

/-- Symmetry follows from a finite check on the live indices, provided all
adjacency entries point at live junctions. -/
lemma symAdj_of_table (S : Substrate) (n : ℕ) (hn : S.junctions.length = n)
    (hcl : ∀ a, a < n → ∀ b ∈ (getJ S a).adjacent, b < n)
    (htab : ∀ a, a < n → ∀ b, b < n → adjCount S a b = adjCount S b a) :
    SymAdj S := by
  intro a b
  by_cases ha : a < n <;> by_cases hb : b < n
  · exact htab a ha b hb
  · rw [adjCount_out S b a (by omega)]
    exact List.count_eq_zero.2 fun hmem => absurd (hcl a ha b hmem) (by omega)
  · rw [adjCount_out S a b (by omega)]
    exact (List.count_eq_zero.2 fun hmem => absurd (hcl b hb a hmem) (by omega)).symm
  · rw [adjCount_out S a b (by omega), adjCount_out S b a (by omega)]

lemma adjCount_modJ_append (S : Substrate) (i x a b : ℕ)
    (hi : i < S.junctions.length) :
    adjCount (modJ S i fun j => { j with adjacent := j.adjacent ++ [x] }) a b =
      adjCount S a b + (if a = i ∧ b = x then 1 else 0) := by
  unfold adjCount
  by_cases ha : a = i
  · subst ha
    rw [getJ_modJ_self _ _ _ hi]
    by_cases hb : b = x
    · subst hb
      simp [List.count_append]
    · simp [List.count_append, hb]
  · rw [getJ_modJ_ne _ _ _ _ ha]
    simp [ha]

lemma adjCount_modJ_erase (S : Substrate) (i x a b : ℕ)
    (hi : i < S.junctions.length) :
    adjCount (modJ S i fun j => { j with adjacent := j.adjacent.erase x }) a b =
      adjCount S a b - (if a = i ∧ b = x then 1 else 0) := by
  unfold adjCount
  by_cases ha : a = i
  · subst ha
    rw [getJ_modJ_self _ _ _ hi]
    by_cases hb : b = x
    · subst hb
      simp [List.count_erase_self]
    · rw [List.count_erase_of_ne hb]
      simp [hb]
  · rw [getJ_modJ_ne _ _ _ _ ha]
    simp [ha]

/-- Effect of `addTubule` on adjacency counts: one entry `i2` appended to
junction `i1` and one entry `i1` appended to junction `i2`. -/
lemma adjCount_addTubule (S : Substrate) (i1 i2 : ℕ) (hk g w : Option ℝ)
    (cr : Option ℤ) (a b : ℕ)
    (h1 : i1 < S.junctions.length) (h2 : i2 < S.junctions.length) :
    adjCount (addTubule S i1 i2 hk g w cr).1 a b =
      adjCount S a b + (if a = i1 ∧ b = i2 then 1 else 0)
        + (if a = i2 ∧ b = i1 then 1 else 0) := by
  show adjCount (modJ (modJ S i1 fun j => { j with adjacent := j.adjacent ++ [i2] })
    i2 fun j => { j with adjacent := j.adjacent ++ [i1] }) a b = _
  rw [adjCount_modJ_append _ _ _ _ _ (by rw [modJ_junctions_length]; exact h2),
    adjCount_modJ_append _ _ _ _ _ h1]

lemma symAdj_addTubule (S : Substrate) (i1 i2 : ℕ) (hk g w : Option ℝ)
    (cr : Option ℤ) (hs : SymAdj S)
    (h1 : i1 < S.junctions.length) (h2 : i2 < S.junctions.length) :
    SymAdj (addTubule S i1 i2 hk g w cr).1 := by
  intro a b
  rw [adjCount_addTubule S i1 i2 hk g w cr a b h1 h2,
    adjCount_addTubule S i1 i2 hk g w cr b a h1 h2, hs a b]
  split_ifs <;> omega

lemma getJl_append_lt (js : List Junction) (j : Junction) (a : ℕ)
    (h : a < js.length) :
    getJl (js ++ [j]) a = getJl js a := by
  unfold getJl
  rw [List.getD_eq_getElem _ _ (by simp; omega), List.getD_eq_getElem _ _ h]
  exact List.getElem_append_left h

lemma getJl_append_self (js : List Junction) (j : Junction) :
    getJl (js ++ [j]) js.length = j := by
  unfold getJl
  rw [List.getD_eq_getElem _ _ (by simp)]
  simp

lemma getJl_append_gt (js : List Junction) (j : Junction) (a : ℕ)
    (h : js.length < a) :
    getJl (js ++ [j]) a = default := by
  unfold getJl
  rw [List.getD_eq_default _ _ (by simp; omega)]

/-- A freshly created junction has an empty adjacency list, so junction
creation does not disturb adjacency counts at all. -/
lemma adjCount_addJunction (S : Substrate) (x y : F)
    (an g fl : Option Bool) (fr : Option FV) (d w : Option ℝ) (c : Option ℤ)
    (a b : ℕ) :
    adjCount (addJunction S x y an g fl fr d w c).1 a b =
      if a < S.junctions.length then adjCount S a b else 0 := by
  unfold adjCount getJ
  show (getJl (S.junctions ++ [_]) a).adjacent.count b = _
  rcases lt_trichotomy a S.junctions.length with h | h | h
  · rw [getJl_append_lt _ _ _ h, if_pos h]
  · subst h
    rw [getJl_append_self, if_neg (lt_irrefl _)]
    rfl
  · rw [getJl_append_gt _ _ _ h, if_neg (by omega)]
    rfl

lemma symAdj_addJunction (S : Substrate) (x y : F)
    (an g fl : Option Bool) (fr : Option FV) (d w : Option ℝ) (c : Option ℤ)
    (hs : SymAdj S) :
    SymAdj (addJunction S x y an g fl fr d w c).1 := by
  intro a b
  rw [adjCount_addJunction, adjCount_addJunction]
  by_cases ha : a < S.junctions.length <;> by_cases hb : b < S.junctions.length
  · rw [if_pos ha, if_pos hb, hs a b]
  · rw [if_pos ha, if_neg hb, hs a b, adjCount_out S b a (by omega)]
  · rw [if_neg ha, if_pos hb, hs b a, adjCount_out S a b (by omega)]
  · rw [if_neg ha, if_neg hb]

/-- The two mutual `erase` calls of `splitTubule` keep adjacency counts
symmetric: symmetric counts decrement together. -/
lemma symAdj_erase_pair (S : Substrate) (u v : ℕ)
    (hu : u < S.junctions.length) (hv : v < S.junctions.length)
    (hs : SymAdj S) :
    SymAdj (modJ (modJ S u fun j => { j with adjacent := j.adjacent.erase v }) v
      fun j => { j with adjacent := j.adjacent.erase u }) := by
  intro a b
  rw [adjCount_modJ_erase _ _ _ _ _ (by rw [modJ_junctions_length]; exact hv),
    adjCount_modJ_erase _ _ _ _ _ hu,
    adjCount_modJ_erase _ _ _ _ _ (by rw [modJ_junctions_length]; exact hv),
    adjCount_modJ_erase _ _ _ _ _ hu, hs a b]
  split_ifs <;> omega

lemma symAdj_modT (S : Substrate) (i : ℕ) (f : Tubule → Tubule)
    (hs : SymAdj S) : SymAdj (modT S i f) := hs

lemma findSplit_cons_none (t : Tubule) (ts : List Tubule) (i : ℕ) (r : ℝ)
    (hn : t.norm = none) :
    findSplit r (t :: ts) i = some (i, r) := by
  simp only [findSplit, hn]

/-- A successful scan reports an index within the scanned segment. -/
lemma findSplit_index_lt (r : ℝ) (ts : List Tubule) (i0 : ℕ) (p : ℕ × ℝ)
    (h : findSplit r ts i0 = some p) :
    p.1 < i0 + ts.length ∧ i0 ≤ p.1 := by
  induction ts generalizing r i0 with
  | nil => exact Option.noConfusion h
  | cons t ts ih =>
    rcases hn : t.norm with _ | n
    · rw [findSplit_cons_none t ts i0 r hn] at h
      cases h
      simp only [List.length_cons]
      omega
    · rw [findSplit_cons t ts i0 r n hn] at h
      by_cases hr : r > n
      · rw [if_pos hr] at h
        have := ih (r - n) (i0 + 1) h
        simp only [List.length_cons]
        omega
      · rw [if_neg hr] at h
        cases h
        simp only [List.length_cons]
        omega

/-- The topology edit of a split preserves adjacency-count symmetry: the
fresh junctions start with empty lists, the mutual erases decrement
symmetric counts together, and the three tubule creations append mutual
entries. -/
lemma symAdj_splitTopo (S : Substrate) (i : ℕ) (p1 p2 : FV) (c1 c2 c3 : ℤ)
    (hs : SymAdj S) (hj1 : (getT S i).j1 < S.junctions.length)
    (hj2 : (getT S i).j2 < S.junctions.length) :
    SymAdj (splitTopo S i p1 p2 c1 c2 c3) := by
  have hA1 : SymAdj (addJunction S p1.1 p1.2 none none none none none none none).1 :=
    symAdj_addJunction _ _ _ _ _ _ _ _ _ _ hs
  have hA2 : SymAdj (addJunction
      (addJunction S p1.1 p1.2 none none none none none none none).1
      p2.1 p2.2 none (some true) none none none none none).1 :=
    symAdj_addJunction _ _ _ _ _ _ _ _ _ _ hA1
  have lA2 : ((addJunction
      (addJunction S p1.1 p1.2 none none none none none none none).1
      p2.1 p2.2 none (some true) none none none none none).1).junctions.length
      = S.junctions.length + 2 := by
    rw [addJunction_junctions_length, addJunction_junctions_length]
  simp only [splitTopo]
  apply symAdj_modT
  apply symAdj_addTubule
  · apply symAdj_addTubule
    · apply symAdj_addTubule
      · exact symAdj_erase_pair _ _ _ (by omega) (by omega) hA2
      · show (addJunction S p1.1 p1.2 none none none none none none none).2
          < (modJ (modJ _ _ _) _ _).junctions.length
        rw [modJ_junctions_length, modJ_junctions_length, lA2]
        show S.junctions.length < S.junctions.length + 2
        omega
      · rw [modJ_junctions_length, modJ_junctions_length, lA2]
        omega
    · rw [addTubule_junctions_length, modJ_junctions_length,
        modJ_junctions_length, lA2]
      show S.junctions.length < S.junctions.length + 2
      omega
    · rw [addTubule_junctions_length, modJ_junctions_length,
        modJ_junctions_length, lA2]
      omega
  · rw [addTubule_junctions_length, addTubule_junctions_length,
      modJ_junctions_length, modJ_junctions_length, lA2]
    show S.junctions.length < S.junctions.length + 2
    omega
  · rw [addTubule_junctions_length, addTubule_junctions_length,
      modJ_junctions_length, modJ_junctions_length, lA2]
    show (addJunction S p1.1 p1.2 none none none none none none none).1.junctions.length
      < S.junctions.length + 2
    rw [addJunction_junctions_length]
    omega

lemma symAdj_doSplit (S : Substrate) (i : ℕ) (r c : ℝ)
    (hs : SymAdj S) (hj1 : (getT S i).j1 < S.junctions.length)
    (hj2 : (getT S i).j2 < S.junctions.length) :
    SymAdj (doSplit S i r c) := by
  simp only [doSplit]
  exact symAdj_splitTopo S i _ _ _ _ _ hs hj1 hj2

/-- C2 (amended): `addTubule` and `splitTubule` preserve the symmetric
adjacency invariant (with multiplicity), assuming it held on entry and the
touched indices are live; `mergeTubule` does not — after a successful merge
the tip sits in the endpoints' lists without the reciprocal entries. -/
theorem c2_adjacency_symmetry (S : Substrate) (i1 i2 : ℕ) (hk g w : Option ℝ)
    (cr : Option ℤ) (r c : ℝ)
    (hs : SymAdj S)
    (htv : ∀ t ∈ S.tubules, t.j1 < S.junctions.length ∧ t.j2 < S.junctions.length)
    (h1 : i1 < S.junctions.length) (h2 : i2 < S.junctions.length) :
    SymAdj (addTubule S i1 i2 hk g w cr).1 ∧ SymAdj (splitTubule S r c) := by
  refine ⟨symAdj_addTubule S i1 i2 hk g w cr hs h1 h2, ?_⟩
  unfold splitTubule
  rcases hF : findSplit r S.tubules 0 with _ | p
  · exact hs
  · have hb := findSplit_index_lt r S.tubules 0 p hF
    have hplen : p.1 < S.tubules.length := by omega
    have hmem : getT S p.1 ∈ S.tubules := by
      unfold getT
      rw [List.getD_eq_getElem _ _ hplen]
      exact List.getElem_mem hplen
    obtain ⟨hj1, hj2⟩ := htv _ hmem
    exact symAdj_doSplit S p.1 p.2 c hs hj1 hj2

/-- C2 witness substrate: two junctions, no tubules yet. -/
def Sw : Substrate :=
  { width := 400, height := 400,
    junctions := [mkJunction (some 100) (some 100), mkJunction (some 200) (some 100)] }

theorem c2_adjacency_symmetry_witness :
    (SymAdj Sw ∧
      (∀ t ∈ Sw.tubules, t.j1 < Sw.junctions.length ∧ t.j2 < Sw.junctions.length) ∧
      0 < Sw.junctions.length ∧ 1 < Sw.junctions.length) ∧
    SymAdj (addTubule Sw 0 1 none none none none).1 ∧ SymAdj (splitTubule Sw 1 1) := by
  have hs : SymAdj Sw := symAdj_of_table Sw 2 rfl (by decide) (by decide)
  have htv : ∀ t ∈ Sw.tubules, t.j1 < Sw.junctions.length ∧ t.j2 < Sw.junctions.length := by
    intro t ht
    simp [Sw] at ht
  exact ⟨⟨hs, htv, by decide, by decide⟩,
    c2_adjacency_symmetry Sw 0 1 none none none none 1 1 hs htv
      (by decide) (by decide)⟩

lemma addTubule_getJ_i1 (S : Substrate) (i1 i2 : ℕ) (hk g w : Option ℝ)
    (cr : Option ℤ) (hne : i1 ≠ i2) (h1 : i1 < S.junctions.length) :
    getJ (addTubule S i1 i2 hk g w cr).1 i1 =
      { getJ S i1 with adjacent := (getJ S i1).adjacent ++ [i2] } := by
  show getJ (modJ (modJ S i1 fun j => { j with adjacent := j.adjacent ++ [i2] })
    i2 fun j => { j with adjacent := j.adjacent ++ [i1] }) i1 = _
  rw [getJ_modJ_ne _ _ _ _ hne, getJ_modJ_self _ _ _ h1]

lemma addTubule_getJ_i2 (S : Substrate) (i1 i2 : ℕ) (hk g w : Option ℝ)
    (cr : Option ℤ) (hne : i1 ≠ i2) (h2 : i2 < S.junctions.length) :
    getJ (addTubule S i1 i2 hk g w cr).1 i2 =
      { getJ S i2 with adjacent := (getJ S i2).adjacent ++ [i1] } := by
  show getJ (modJ (modJ S i1 fun j => { j with adjacent := j.adjacent ++ [i2] })
    i2 fun j => { j with adjacent := j.adjacent ++ [i1] }) i2 = _
  rw [getJ_modJ_self _ _ _ (by rw [modJ_junctions_length]; exact h2),
    getJ_modJ_ne _ _ _ _ fun h => hne h.symm]

lemma addTubule_getJ_other (S : Substrate) (i1 i2 : ℕ) (hk g w : Option ℝ)
    (cr : Option ℤ) (a : ℕ) (ha1 : a ≠ i1) (ha2 : a ≠ i2) :
    getJ (addTubule S i1 i2 hk g w cr).1 a = getJ S a := by
  show getJ (modJ (modJ S i1 fun j => { j with adjacent := j.adjacent ++ [i2] })
    i2 fun j => { j with adjacent := j.adjacent ++ [i1] }) a = _
  rw [getJ_modJ_ne _ _ _ _ ha2, getJ_modJ_ne _ _ _ _ ha1]

/-- Appending two fresh entries and erasing them again restores the list,
also when the two entries coincide. -/
lemma erase_append_pair (l : List ℕ) (a b : ℕ) (ha : a ∉ l) (hb : b ∉ l) :
    ((l ++ [a] ++ [b]).erase a).erase b = l := by
  rw [List.append_assoc, List.erase_append_right _ ha,
    show ([a] ++ [b] : List ℕ) = a :: [b] from rfl, List.erase_cons_head,
    List.erase_append_right _ hb, List.erase_cons_head]
  simp

/-- What the hit branch of `mergeTubule` actually does to the state: the
tip's own adjacency list is left exactly as it was (the two appends are
cancelled by the two removes), the tip is appended — one-sidedly — to both
former endpoints' lists, `growing` is cleared, and the tubule is marked. -/
lemma mergeAction_post (S : Substrate) (ji i : ℕ) (t : Tubule)
    (hji : ji < S.junctions.length)
    (hj1 : t.j1 < S.junctions.length) (hj2 : t.j2 < S.junctions.length)
    (hne1 : ji ≠ t.j1) (hne2 : ji ≠ t.j2)
    (hn1 : t.j1 ∉ (getJ S ji).adjacent) (hn2 : t.j2 ∉ (getJ S ji).adjacent)
    (hi : i < S.tubules.length) :
    (getJ (mergeAction S ji i t) ji).adjacent = (getJ S ji).adjacent ∧
    (getJ (mergeAction S ji i t) ji).growing = false ∧
    ji ∈ (getJ (mergeAction S ji i t) t.j1).adjacent ∧
    ji ∈ (getJ (mergeAction S ji i t) t.j2).adjacent ∧
    (getT (mergeAction S ji i t) i).to_remove = true := by
  simp only [mergeAction]
  set pr := mergeCrossovers S ji t with hpr
  set S2 := (addTubule S ji t.j1 none none none (some pr.1)).1 with hS2
  set S3 := (addTubule S2 ji t.j2 none none none (some pr.2)).1 with hS3
  set S4 := modJ S3 ji fun j =>
    { j with adjacent := (j.adjacent.erase t.j1).erase t.j2 } with hS4
  set S5 := modJ S4 ji fun j => { j with growing := false } with hS5
  have len2 : S2.junctions.length = S.junctions.length := by
    rw [hS2, addTubule_junctions_length]
  have len3 : S3.junctions.length = S.junctions.length := by
    rw [hS3, addTubule_junctions_length, len2]
  have len4 : S4.junctions.length = S.junctions.length := by
    rw [hS4, modJ_junctions_length, len3]
  have g2 : getJ S2 ji = { getJ S ji with adjacent := (getJ S ji).adjacent ++ [t.j1] } := by
    rw [hS2]
    exact addTubule_getJ_i1 _ _ _ _ _ _ _ hne1 hji
  have g3 : getJ S3 ji =
      { getJ S ji with adjacent := (getJ S ji).adjacent ++ [t.j1] ++ [t.j2] } := by
    rw [hS3, addTubule_getJ_i1 _ _ _ _ _ _ _ hne2 (by rw [len2]; exact hji), g2]
  have a4 : (getJ S4 ji).adjacent = (getJ S ji).adjacent := by
    rw [hS4, getJ_modJ_self _ _ _ (by rw [len3]; exact hji)]
    dsimp only
    rw [g3]
    dsimp only
    exact erase_append_pair _ _ _ hn1 hn2
  have g4keep : (getJ S4 ji).growing = (getJ S ji).growing := by
    rw [hS4, getJ_modJ_self _ _ _ (by rw [len3]; exact hji)]
    dsimp only
    rw [g3]
  have a5 : (getJ S5 ji).adjacent = (getJ S ji).adjacent := by
    rw [hS5, getJ_modJ_self _ _ _ (by rw [len4]; exact hji)]
    dsimp only
    exact a4
  have grow5 : (getJ S5 ji).growing = false := by
    rw [hS5, getJ_modJ_self _ _ _ (by rw [len4]; exact hji)]
  have m2 : ji ∈ (getJ S3 t.j2).adjacent := by
    rw [hS3, addTubule_getJ_i2 _ _ _ _ _ _ _ hne2 (by rw [len2]; exact hj2)]
    dsimp only
    simp
  have m1 : ji ∈ (getJ S3 t.j1).adjacent := by
    by_cases hee : t.j1 = t.j2
    · rw [hee]
      exact m2
    · rw [hS3, addTubule_getJ_other _ _ _ _ _ _ _ _ (Ne.symm hne1) hee, hS2,
        addTubule_getJ_i2 _ _ _ _ _ _ _ hne1 hj1]
      dsimp only
      simp
  have m1_5 : ji ∈ (getJ S5 t.j1).adjacent := by
    rw [hS5, getJ_modJ_ne _ _ _ _ (Ne.symm hne1), hS4,
      getJ_modJ_ne _ _ _ _ (Ne.symm hne1)]
    exact m1
  have m2_5 : ji ∈ (getJ S5 t.j2).adjacent := by
    rw [hS5, getJ_modJ_ne _ _ _ _ (Ne.symm hne2), hS4,
      getJ_modJ_ne _ _ _ _ (Ne.symm hne2)]
    exact m2
  have lenT : S5.tubules.length = S.tubules.length + 2 := by
    rw [hS5, hS4]
    show S3.tubules.length = _
    rw [hS3, addTubule_tubules_length, hS2, addTubule_tubules_length]
  refine ⟨?_, ?_, ?_, ?_, ?_⟩
  · rw [getJ_modT]
    exact a5
  · rw [getJ_modT]
    exact grow5
  · rw [getJ_modT]
    exact m1_5
  · rw [getJ_modT]
    exact m2_5
  · rw [getT_modT_self _ _ _ (by rw [lenT]; omega)]

/-- The scan fires on the first tubule of the list when the eligibility
checks pass and the distance and collinearity tests accept. -/
lemma mergeScan_hit_head (S : Substrate) (ji i : ℕ) (rest : List ℕ)
    (h1 : ji ∉ (getJ S (getT S i).j1).adjacent)
    (h2 : ji ∉ (getJ S (getT S i).j2).adjacent)
    (h3 : ¬ fgtv (fnorm (mergeVec S ji (getT S i))) (getT S i).norm)
    (h4 : fgtc (fdot (funit (mergeVec S ji (getT S i))
        (fnorm (mergeVec S ji (getT S i)))) (getT S i).unit)
      (colCheck (fnorm (mergeVec S ji (getT S i))))) :
    mergeScan S ji (i :: rest) =
      mergeAction (modJ S ji fun j => { j with vector := mergeVec S ji (getT S i) })
        ji i (getT S i) := by
  simp only [mergeScan]
  rw [if_neg h1, if_neg h2, if_neg h3, if_pos h4]

lemma mergeTubule_scan (S : Substrate) (ji : ℕ)
    (hg : (getJ S ji).growing = true) (hsp : (getJ S ji).just_split = false) :
    mergeTubule S ji = mergeScan S ji (List.range S.tubules.length) := by
  simp [mergeTubule, hg, hsp]

/-- Combined outcome of `mergeTubule` when the first tubule in the
collection is hit by the growing tip `ji`: the tip's adjacency list is
unchanged — in particular it does NOT contain the former endpoints — while
both endpoints gain a one-sided entry for the tip, the tip stops growing,
and the tubule is marked for removal. -/
lemma mergeTubule_first_hit (S : Substrate) (ji n : ℕ)
    (hg : (getJ S ji).growing = true) (hsp : (getJ S ji).just_split = false)
    (hlen : S.tubules.length = n + 1)
    (h1 : ji ∉ (getJ S (getT S 0).j1).adjacent)
    (h2 : ji ∉ (getJ S (getT S 0).j2).adjacent)
    (h3 : ¬ fgtv (fnorm (mergeVec S ji (getT S 0))) (getT S 0).norm)
    (h4 : fgtc (fdot (funit (mergeVec S ji (getT S 0))
        (fnorm (mergeVec S ji (getT S 0)))) (getT S 0).unit)
      (colCheck (fnorm (mergeVec S ji (getT S 0)))))
    (hji : ji < S.junctions.length)
    (hj1 : (getT S 0).j1 < S.junctions.length)
    (hj2 : (getT S 0).j2 < S.junctions.length)
    (hne1 : ji ≠ (getT S 0).j1) (hne2 : ji ≠ (getT S 0).j2)
    (hn1 : (getT S 0).j1 ∉ (getJ S ji).adjacent)
    (hn2 : (getT S 0).j2 ∉ (getJ S ji).adjacent) :
    (getJ (mergeTubule S ji) ji).growing = false ∧
    (getT (mergeTubule S ji) 0).to_remove = true ∧
    (getJ (mergeTubule S ji) ji).adjacent = (getJ S ji).adjacent ∧
    (getT S 0).j1 ∉ (getJ (mergeTubule S ji) ji).adjacent ∧
    (getT S 0).j2 ∉ (getJ (mergeTubule S ji) ji).adjacent ∧
    ji ∈ (getJ (mergeTubule S ji) (getT S 0).j1).adjacent ∧
    ji ∈ (getJ (mergeTubule S ji) (getT S 0).j2).adjacent := by
  rw [mergeTubule_scan S ji hg hsp, hlen, List.range_succ_eq_map n,
    mergeScan_hit_head S ji 0 _ h1 h2 h3 h4]
  set S1 := modJ S ji fun j => { j with vector := mergeVec S ji (getT S 0) } with hS1
  have e_adj : (getJ S1 ji).adjacent = (getJ S ji).adjacent := by
    rw [hS1, getJ_modJ_self _ _ _ hji]
  have post := mergeAction_post S1 ji 0 (getT S 0)
    (by rw [hS1, modJ_junctions_length]; exact hji)
    (by rw [hS1, modJ_junctions_length]; exact hj1)
    (by rw [hS1, modJ_junctions_length]; exact hj2)
    hne1 hne2 (by rw [e_adj]; exact hn1) (by rw [e_adj]; exact hn2)
    (by rw [hS1, modJ_tubules, hlen]; omega)
  obtain ⟨p1, p2, p3, p4, p5⟩ := post
  rw [e_adj] at p1
  exact ⟨p2, p5, p1, by rw [p1]; exact hn1, by rw [p1]; exact hn2, p3, p4⟩

/-- C1 (amended): for a growing junction `ji` (justSplit cleared) whose
scan hits the first tubule `t` of the collection, `mergeTubule` clears
`ji.growing` and marks `t` for removal, but `ji`'s adjacency list is left
exactly as it was before the call: the entries for `t.j1` and `t.j2`
appended by the two tubule creations are immediately removed again, so the
list does not contain the former endpoints; instead `t.j1` and `t.j2` each
gain a one-sided entry for `ji`. -/
theorem c1_merge_result (S : Substrate) (ji n : ℕ)
    (hg : (getJ S ji).growing = true) (hsp : (getJ S ji).just_split = false)
    (hlen : S.tubules.length = n + 1)
    (h1 : ji ∉ (getJ S (getT S 0).j1).adjacent)
    (h2 : ji ∉ (getJ S (getT S 0).j2).adjacent)
    (h3 : ¬ fgtv (fnorm (mergeVec S ji (getT S 0))) (getT S 0).norm)
    (h4 : fgtc (fdot (funit (mergeVec S ji (getT S 0))
        (fnorm (mergeVec S ji (getT S 0)))) (getT S 0).unit)
      (colCheck (fnorm (mergeVec S ji (getT S 0)))))
    (hji : ji < S.junctions.length)
    (hj1 : (getT S 0).j1 < S.junctions.length)
    (hj2 : (getT S 0).j2 < S.junctions.length)
    (hne1 : ji ≠ (getT S 0).j1) (hne2 : ji ≠ (getT S 0).j2)
    (hn1 : (getT S 0).j1 ∉ (getJ S ji).adjacent)
    (hn2 : (getT S 0).j2 ∉ (getJ S ji).adjacent) :
    (getJ (mergeTubule S ji) ji).growing = false ∧
    (getT (mergeTubule S ji) 0).to_remove = true ∧
    (getJ (mergeTubule S ji) ji).adjacent = (getJ S ji).adjacent ∧
    (getT S 0).j1 ∉ (getJ (mergeTubule S ji) ji).adjacent ∧
    (getT S 0).j2 ∉ (getJ (mergeTubule S ji) ji).adjacent ∧
    ji ∈ (getJ (mergeTubule S ji) (getT S 0).j1).adjacent ∧
    ji ∈ (getJ (mergeTubule S ji) (getT S 0).j2).adjacent :=
  mergeTubule_first_hit S ji n hg hsp hlen h1 h2 h3 h4 hji hj1 hj2 hne1 hne2 hn1 hn2

/-- Concrete merge scenario: a horizontal tubule 0-1 from (0,0) to (10,0)
and a growing tip (junction 3, parent junction 2) sitting at (5,0), exactly
on the tubule, with `just_split` already cleared. -/
def jm (x y : ℝ) (adj : List ℕ) : Junction :=
  { mkJunction (some x) (some y) with adjacent := adj }

def Sm : Substrate :=
  { width := 400, height := 400,
    junctions := [jm 0 0 [1], jm 10 0 [0], jm 5 1 [3],
      { jm 5 0 [2] with growing := true, just_split := false }],
    tubules := [cachedTubule 0 1 (some 10, some 0) 400 0 (5 / 100000),
      cachedTubule 2 3 (some 0, some (-1)) 400 0 (5 / 100000)] }

lemma Sm_mergeVec : mergeVec Sm 3 (getT Sm 0) = (some (5 - 0), some (0 - 0)) := rfl

lemma Sm_jnorm : fnorm (mergeVec Sm 3 (getT Sm 0)) = some 5 := by
  rw [Sm_mergeVec]
  exact fnorm_eval (5 - 0) (0 - 0) 5 (by norm_num) (by norm_num)

lemma Sm_tnorm : (getT Sm 0).norm = some 10 := by
  show fnorm (some 10, some 0) = some 10
  exact fnorm_eval 10 0 10 (by norm_num) (by norm_num)

lemma Sm_h3 : ¬ fgtv (fnorm (mergeVec Sm 3 (getT Sm 0))) (getT Sm 0).norm := by
  rw [Sm_jnorm, Sm_tnorm]
  show ¬ ((5 : ℝ) > 10)
  norm_num

lemma Sm_h4 : fgtc (fdot (funit (mergeVec Sm 3 (getT Sm 0))
      (fnorm (mergeVec Sm 3 (getT Sm 0)))) (getT Sm 0).unit)
    (colCheck (fnorm (mergeVec Sm 3 (getT Sm 0)))) := by
  have hcol : colCheck (fnorm (mergeVec Sm 3 (getT Sm 0))) = 999 / 1000 := by
    rw [Sm_jnorm]
    unfold colCheck
    rw [if_neg (by show ¬ ((5 : ℝ) < 1 / 10); norm_num),
      if_neg (by show ¬ ((5 : ℝ) < 1); norm_num)]
  have hu : (getT Sm 0).unit = funit (some 10, some 0) (fnorm (some 10, some 0)) := rfl
  have hdot : fdot (funit (mergeVec Sm 3 (getT Sm 0))
      (fnorm (mergeVec Sm 3 (getT Sm 0)))) (getT Sm 0).unit = some 1 := by
    rw [Sm_jnorm, Sm_mergeVec, hu, fnorm_eval 10 0 10 (by norm_num) (by norm_num)]
    norm_num [funit, fdiv, fdot, fadd, fmul]
  rw [hdot, hcol]
  show (1 : ℝ) > 999 / 1000
  norm_num

/-- Shared evaluation of the merge at the concrete state. -/
lemma Sm_post :
    (getJ (mergeTubule Sm 3) 3).growing = false ∧
    (getT (mergeTubule Sm 3) 0).to_remove = true ∧
    (getJ (mergeTubule Sm 3) 3).adjacent = (getJ Sm 3).adjacent ∧
    (getT Sm 0).j1 ∉ (getJ (mergeTubule Sm 3) 3).adjacent ∧
    (getT Sm 0).j2 ∉ (getJ (mergeTubule Sm 3) 3).adjacent ∧
    3 ∈ (getJ (mergeTubule Sm 3) (getT Sm 0).j1).adjacent ∧
    3 ∈ (getJ (mergeTubule Sm 3) (getT Sm 0).j2).adjacent :=
  mergeTubule_first_hit Sm 3 1 rfl rfl rfl (by decide) (by decide) Sm_h3 Sm_h4
    (by decide) (by decide) (by decide) (by decide) (by decide)
    (by decide) (by decide)

theorem c1_merge_result_witness :
    (getJ (mergeTubule Sm 3) 3).growing = false ∧
    (getT (mergeTubule Sm 3) 0).to_remove = true ∧
    (getJ (mergeTubule Sm 3) 3).adjacent = (getJ Sm 3).adjacent ∧
    (getT Sm 0).j1 ∉ (getJ (mergeTubule Sm 3) 3).adjacent ∧
    (getT Sm 0).j2 ∉ (getJ (mergeTubule Sm 3) 3).adjacent ∧
    3 ∈ (getJ (mergeTubule Sm 3) (getT Sm 0).j1).adjacent ∧
    3 ∈ (getJ (mergeTubule Sm 3) (getT Sm 0).j2).adjacent :=
  c1_merge_result Sm 3 1 rfl rfl rfl (by decide) (by decide) Sm_h3 Sm_h4
    (by decide) (by decide) (by decide) (by decide) (by decide)
    (by decide) (by decide)

/-- C1 counterexample: at the concrete hit, `mergeTubule` clears `growing`
and marks the tubule, but junction 3's adjacency list does NOT contain the
former endpoints 0 and 1 of the merged tubule — it is still its original
`[2]`. -/
theorem c1_counterexample :
    (getJ (mergeTubule Sm 3) 3).growing = false ∧
    (getT (mergeTubule Sm 3) 0).to_remove = true ∧
    0 ∉ (getJ (mergeTubule Sm 3) 3).adjacent ∧
    1 ∉ (getJ (mergeTubule Sm 3) 3).adjacent :=
  ⟨Sm_post.1, Sm_post.2.1, Sm_post.2.2.2.1, Sm_post.2.2.2.2.1⟩

/-- C2 counterexample: the concrete state is adjacency-symmetric before the
merge, and afterwards junction 0 lists junction 3 while junction 3 does not
list junction 0 — `mergeTubule` returns with symmetry broken. -/
theorem c2_counterexample :
    SymAdj Sm ∧
    3 ∈ (getJ (mergeTubule Sm 3) 0).adjacent ∧
    0 ∉ (getJ (mergeTubule Sm 3) 3).adjacent :=
  ⟨symAdj_of_table Sm 4 rfl (by decide) (by decide),
    Sm_post.2.2.2.2.2.1, Sm_post.2.2.2.1⟩


end
